import Mathlib

/-!
Verification of the quantum-graph builder (`graphBuilder.py` of `pipe_base`).

The Python module is shallowly embedded below: Python `dict`s become
association lists with insertion-ordered update semantics (`dictGet`,
`dictSet`), Python `set`s of hashable values become duplicate-free lists
built with `setAdd`, and every fallible operation returns `Except BuildError`.
-/

set_option autoImplicit false

namespace PipeBase

/-- Python `dict` lookup (`d[k]`), returning `none` when the key is absent. -/
def dictGet {K V : Type} [DecidableEq K] : List (K × V) → K → Option V
  | [], _ => none
  | (k', v') :: rest, k => if k' = k then some v' else dictGet rest k

/-- Python `dict` assignment `d[k] = v`: overwrite in place when the key is
present (keeping its position, as Python dicts do), append otherwise. -/
def dictSet {K V : Type} [DecidableEq K] : List (K × V) → K → V → List (K × V)
  | [], k, v => [(k, v)]
  | (k', v') :: rest, k, v =>
      if k' = k then (k, v) :: rest else (k', v') :: dictSet rest k v

/-- Python `set.add`: append the element when it is not already present. -/
def setAdd {α : Type} [DecidableEq α] (s : List α) (x : α) : List α :=
  if x ∈ s then s else s ++ [x]

/-- Python set union `a | b`. -/
def setUnion {α : Type} [DecidableEq α] (a b : List α) : List α :=
  b.foldl setAdd a

/-- Python set difference `a - b`. -/
def setDiff {α : Type} [DecidableEq α] (a b : List α) : List α :=
  a.filter (fun x => decide (x ∉ b))

/-- Python set intersection `a & b` (`DimensionSet.intersections`). -/
def setInter {α : Type} [DecidableEq α] (a b : List α) : List α :=
  a.filter (fun x => decide (x ∈ b))

/-! ## Data model

Mirrors `lsst.daf.butler` value types as used by `graphBuilder.py`:
dimension names are strings, a data ID is a dict from dimension link
name to a concrete value, a `DatasetRef` carries its `DatasetType`,
data ID and optional persisted id (`ref.id is not None` means the
dataset already exists in storage). -/

/-- A dimension (coordinate axis) name. -/
abbrev DimName := String

/-- A data ID: a Python dict from dimension link name to value. -/
abbrev DataId := List (String × Nat)

/-- `lsst.daf.butler.DatasetType`: a named, dimension-typed class of data
products. `dimensions` lists the link dimension names of its signature. -/
structure DatasetType where
  name : String
  dimensions : List DimName
deriving DecidableEq, Repr

/-- `lsst.daf.butler.DatasetRef`: a `DatasetType` bound to concrete
dimension values; `id` is the persisted identifier (`none` = not stored). -/
structure DatasetRef where
  datasetType : DatasetType
  dataId : DataId
  id : Option Nat := none
deriving DecidableEq, Repr

/-- One row of the registry's `selectMultipleDatasetTypes` result: a fully
bound dimension-value combination carrying one `DatasetRef` per dataset
type (`row.dataId`, `row.datasetRefs`). -/
structure Row where
  dataId : DataId
  datasetRefs : List (DatasetType × DatasetRef)
deriving DecidableEq, Repr

/-- The quantum section of a task configuration
(`taskDef.config.quantum.dimensions`). -/
structure QuantumConfig where
  dimensions : List DimName
deriving DecidableEq, Repr

/-- A task configuration; only the quantum dimensions are consumed here. -/
structure TaskConfig where
  quantum : QuantumConfig
deriving DecidableEq, Repr

/-- `TaskDef`: name, lazily loaded class, label and configuration.
`taskClass = none` models an unresolved implementation reference. -/
structure TaskDef where
  taskName : String
  taskClass : Option String := none
  label : String := ""
  config : TaskConfig
deriving DecidableEq, Repr

/-- The `_TaskDatasetTypes` namedtuple: one task together with its
categorized dataset types and per-DatasetType dimensions. -/
structure _TaskDatasetTypes where
  taskDef : TaskDef
  inputs : List DatasetType
  outputs : List DatasetType
  initInputs : List DatasetType
  initOutputs : List DatasetType
  perDatasetTypeDimensions : List DimName
  prerequisite : List DatasetType
deriving DecidableEq, Repr

/-- `lsst.daf.butler.Quantum` as used here: outputs added via `addOutput`
and predicted inputs added via `addPredictedInput`, in order. -/
structure Quantum where
  outputs : List DatasetRef := []
  predictedInputs : List DatasetRef := []
deriving DecidableEq, Repr

/-- `QuantumGraphTaskNodes`: a task definition with its quanta. -/
structure QuantumGraphTaskNodes where
  taskDef : TaskDef
  quanta : List Quantum
deriving DecidableEq, Repr

/-- `QuantumGraph`: the builder's output. `taskNodes` records the
`qgraph.append(...)` calls in order. -/
structure QuantumGraph where
  inputDatasetTypes : List DatasetType := []
  outputDatasetTypes : List DatasetType := []
  initInputs : List DatasetRef := []
  initOutputs : List DatasetRef := []
  taskNodes : List QuantumGraphTaskNodes := []
deriving DecidableEq, Repr

/-- `TaskFactory` collaborator: `loadTaskClass` returns the loaded class
and the fully-qualified task name. -/
structure TaskFactory where
  loadTaskClass : String → String × String

/-- Registry collaborator: `dimLinks d` models
`registry.dimensions[d].links()` and `find` models
`registry.find(collection, datasetType)`. -/
structure Registry where
  dimLinks : DimName → List DimName
  find : String → DatasetType → Option DatasetRef

/-- `DatasetOriginInfo` collaborator: input collections per dataset type. -/
structure OriginInfo where
  getInputCollections : String → List String

/-- Errors raised by the builder.

The Python classes `OutputExistsError` and `PrerequisiteMissingError`
derive from `GraphBuilderError`; the dimension-conflict error raised by
`_extractPerDatasetTypeDimensions` is a plain `ValueError` and the dict
indexing failures are plain `KeyError`s, neither of which belongs to the
graph-builder taxonomy. Error payloads are kept structured (task name,
references, overlap) rather than pre-formatted strings. -/
inductive BuildError where
  | valueErrorDimensionConflict (taskName : String) (overlap : List DimName)
  | keyError (key : String)
  | outputExistsError (taskName : String) (refs : List DatasetRef)
  | prerequisiteMissingError (msg : String)
  | graphBuilderError (msg : String)
deriving DecidableEq, Repr

/-- Whether the raised Python exception class derives from
`GraphBuilderError`. -/
def BuildError.isGraphBuilderError : BuildError → Bool
  | .valueErrorDimensionConflict _ _ => false
  | .keyError _ => false
  | .outputExistsError _ _ => true
  | .prerequisiteMissingError _ => true
  | .graphBuilderError _ => true

/-- `GraphBuilder` construction state (`__init__`); `skipExisting`
defaults to `True`. -/
structure GraphBuilder where
  taskFactory : TaskFactory
  registry : Registry
  skipExisting : Bool := true

/-! ## `GraphBuilder._loadTaskClass` -/

/-- `_loadTaskClass` as a value transformation: when the class is already
loaded the argument is returned as is; otherwise `copy.copy(taskDef)` is
taken and only `taskClass` and `taskName` are updated on the copy. -/
def _loadTaskClass (factory : TaskFactory) (taskDef : TaskDef) : TaskDef :=
  match taskDef.taskClass with
  | some _ => taskDef
  | none =>
      let p := factory.loadTaskClass taskDef.taskName
      { taskDef with taskClass := some p.1, taskName := p.2 }

/-- `_loadTaskClass` over an explicit object store (Python heap): the
pipeline's `TaskDef` objects live at indices of `store`; `copy.copy`
allocates a fresh object at the end of the store and the field updates hit
only that copy, so the result is the new store together with the index of
the returned object. -/
def loadTaskClassStore (factory : TaskFactory) (store : List TaskDef)
    (i : Nat) : List TaskDef × Nat :=
  match store[i]? with
  | none => (store, i)
  | some taskDef =>
      match taskDef.taskClass with
      | some _ => (store, i)
      | none => (store ++ [_loadTaskClass factory taskDef], store.length)

/-! ## `GraphBuilder._extractPerDatasetTypeDimensions` -/

/-- Pipeline-wide union of all tasks' per-DatasetType dimensions
(`noDimensions.union(*[taskDs.perDatasetTypeDimensions ...])`). -/
def pipelinePerDatasetTypeDimensions (taskDatasets : List _TaskDatasetTypes) :
    List DimName :=
  taskDatasets.foldl (fun acc t => setUnion acc t.perDatasetTypeDimensions) []

/-- Union of the dimensions of one task's input and output dataset types
(`noDimensions.union(*[datasetType.dimensions for ... chain(inputs, outputs)])`). -/
def taskAllDimensions (t : _TaskDatasetTypes) : List DimName :=
  (t.inputs ++ t.outputs).foldl (fun acc dt => setUnion acc dt.dimensions) []

/-- `commonTaskDimensions = allTaskDimensions - taskDs.perDatasetTypeDimensions`. -/
def commonTaskDimensions (t : _TaskDatasetTypes) : List DimName :=
  setDiff (taskAllDimensions t) t.perDatasetTypeDimensions

/-- `_extractPerDatasetTypeDimensions`: union all tasks' per-DatasetType
dimensions, then raise `ValueError` at the first task whose common (non
per-DatasetType) dimension usage is not disjoint from that union. -/
def _extractPerDatasetTypeDimensions (taskDatasets : List _TaskDatasetTypes) :
    Except BuildError (List DimName) :=
  let per := pipelinePerDatasetTypeDimensions taskDatasets
  match taskDatasets.find?
      (fun t => decide (setInter (commonTaskDimensions t) per ≠ [])) with
  | some t => .error (.valueErrorDimensionConflict t.taskDef.taskName
      (setInter (commonTaskDimensions t) per))
  | none => .ok per

/-! ## `GraphBuilder._makeFullIODatasetTypes` -/

/-- State of the aggregation loop of `_makeFullIODatasetTypes`: the
`allDatasetTypes` name→instance dict and the five name sets. -/
structure AggState where
  allDatasetTypes : List (String × DatasetType) := []
  requiredNames : List String := []
  optionalNames : List String := []
  prerequisiteNames : List String := []
  initInputNames : List String := []
  initOutputNames : List String := []
deriving DecidableEq, Repr

/-- One category of the inner `zip` loop: `ioSet.add(dsType.name)` and
`allDatasetTypes[dsType.name] = dsType` for each dataset type. -/
def aggCategory (dsTypes : List DatasetType)
    (st : List String × List (String × DatasetType)) :
    List String × List (String × DatasetType) :=
  dsTypes.foldl (fun st dt => (setAdd st.1 dt.name, dictSet st.2 dt.name dt)) st

/-- The body of the outer loop of `_makeFullIODatasetTypes` for one task:
the five categories are processed in the order
`inputs, outputs, prerequisite, initInputs, initOutputs`. -/
def aggTask (st : AggState) (t : _TaskDatasetTypes) : AggState :=
  let p1 := aggCategory t.inputs (st.requiredNames, st.allDatasetTypes)
  let p2 := aggCategory t.outputs (st.optionalNames, p1.2)
  let p3 := aggCategory t.prerequisite (st.prerequisiteNames, p2.2)
  let p4 := aggCategory t.initInputs (st.initInputNames, p3.2)
  let p5 := aggCategory t.initOutputs (st.initOutputNames, p4.2)
  { allDatasetTypes := p5.2
    requiredNames := p1.1
    optionalNames := p2.1
    prerequisiteNames := p3.1
    initInputNames := p4.1
    initOutputNames := p5.1 }

/-- The aggregation loop over all tasks. -/
def aggAll (taskDatasets : List _TaskDatasetTypes) : AggState :=
  taskDatasets.foldl aggTask {}

/-- The five pipeline-wide dataset-type sets returned by
`_makeFullIODatasetTypes`. -/
structure FullIO where
  required : List DatasetType
  optionalOut : List DatasetType
  prerequisite : List DatasetType
  initInputs : List DatasetType
  initOutputs : List DatasetType
deriving DecidableEq, Repr

/-- `_makeFullIODatasetTypes`: aggregate names and instances per category,
subtract produced names from required and prerequisite and initOutput
names from initInput names, then resolve every surviving name through
`allDatasetTypes` (each such name is a key of the dict, so the
`filterMap` lookup never actually drops a name). -/
def _makeFullIODatasetTypes (taskDatasets : List _TaskDatasetTypes) : FullIO :=
  let st := aggAll taskDatasets
  let requiredNames := setDiff st.requiredNames st.optionalNames
  let prerequisiteNames := setDiff st.prerequisiteNames st.optionalNames
  let initInputNames := setDiff st.initInputNames st.initOutputNames
  { required := requiredNames.filterMap (dictGet st.allDatasetTypes)
    optionalOut := st.optionalNames.filterMap (dictGet st.allDatasetTypes)
    prerequisite := prerequisiteNames.filterMap (dictGet st.allDatasetTypes)
    initInputs := initInputNames.filterMap (dictGet st.allDatasetTypes)
    initOutputs := st.initOutputNames.filterMap (dictGet st.allDatasetTypes) }

/-! ## `GraphBuilder._makeGraph` -/

/-- Lexicographic comparison of character lists by code point. -/
def charListLt : List Char → List Char → Bool
  | [], [] => false
  | [], _ :: _ => true
  | _ :: _, [] => false
  | c :: cs, d :: ds =>
      if c.toNat < d.toNat then true
      else if d.toNat < c.toNat then false
      else charListLt cs ds

/-- Strict lexicographic string order by code point, as Python compares
the string keys of data-ID items. -/
def strLt (a b : String) : Bool := charListLt a.data b.data

/-- Lexicographic order on data-ID items, as Python's `sorted` compares
`(str, int)` tuples. -/
def pairLe (a b : String × Nat) : Bool :=
  strLt a.1 b.1 || (decide (a.1 = b.1) && decide (a.2 ≤ b.2))

/-- Insertion step of the sort used by `_datasetRefKey`. -/
def insertPair (p : String × Nat) : DataId → DataId
  | [] => [p]
  | q :: qs => if pairLe p q then p :: q :: qs else q :: insertPair p qs

/-- `sorted(d.items())` for a data ID dict. -/
def sortItems : DataId → DataId
  | [] => []
  | p :: ps => insertPair p (sortItems ps)

/-- `_datasetRefKey(datasetRef) = tuple(sorted(datasetRef.dataId.items()))`:
the dimension-coordinate identity used for deduplication. -/
def _datasetRefKey (datasetRef : DatasetRef) : DataId :=
  sortItems datasetRef.dataId

/-- The quantum dimension key of a task: `qlinks`, the concatenation of
`self.dimensions[name].links()` over the configured quantum dimensions. -/
def qlinksOf (dimLinks : DimName → List DimName) (taskDef : TaskDef) :
    List DimName :=
  taskDef.config.quantum.dimensions.foldl (fun acc d => acc ++ dimLinks d) []

/-- A quantum group key: `qkey = tuple((col, row.dataId[col]) for col in
qlinks)`. A missing column is recorded as `none`. -/
abbrev QKey := List (String × Option Nat)

/-- The projection of one row onto a task's quantum dimension key. -/
def qkeyOf (qlinks : List DimName) (row : Row) : QKey :=
  qlinks.map (fun col => (col, dictGet row.dataId col))

/-- Dataset references of one group and dataset type, keyed by
`_datasetRefKey` for deduplication. -/
abbrev RefDict := List (DataId × DatasetRef)

/-- Per-group accumulation dict: dataset type → deduplicated references. -/
abbrev TypeDict := List (DatasetType × RefDict)

/-- `taskQuantaInputs` / `taskQuantaOutputs`: group key → per-type dict. -/
abbrev QuantaDict := List (QKey × TypeDict)

/-- The inner accumulation loop over one category (`taskDss.inputs` or
`taskDss.outputs`) for one row:
`datasetRefs[_datasetRefKey(datasetRef)] = datasetRef` where
`datasetRef = row.datasetRefs[dsType]` (a missing dataset type raises
`KeyError`, as Python dict indexing does). -/
def addRefs (row : Row) (dsTypes : List DatasetType) (d : TypeDict) :
    Except BuildError TypeDict :=
  dsTypes.foldlM (fun d dsType =>
    match dictGet row.datasetRefs dsType with
    | none => .error (.keyError dsType.name)
    | some datasetRef =>
        let datasetRefs := (dictGet d dsType).getD []
        .ok (dictSet d dsType
          (dictSet datasetRefs (_datasetRefKey datasetRef) datasetRef))) d

/-- Processing of one row of `dimensionVerse` inside the per-task loop:
compute `qkey`, then extend the input and output accumulation dicts. -/
def processRow (qlinks : List DimName) (inputs outputs : List DatasetType)
    (st : QuantaDict × QuantaDict) (row : Row) :
    Except BuildError (QuantaDict × QuantaDict) := do
  let qkey := qkeyOf qlinks row
  let qinputs ← addRefs row inputs ((dictGet st.1 qkey).getD [])
  let qoutputs ← addRefs row outputs ((dictGet st.2 qkey).getD [])
  .ok (dictSet st.1 qkey qinputs, dictSet st.2 qkey qoutputs)

/-- `outputs = list(chain.from_iterable(datasetRefs.values() for datasetRefs
in taskQuantaOutputs[qkey].values()))` (and the analogous input flattening):
all references accumulated for one group, in dict order. -/
def refsFor (d : QuantaDict) (qkey : QKey) : List DatasetRef :=
  (((dictGet d qkey).getD []).map (fun p => p.2.map (fun q => q.2))).flatten

/-- The body of the quantum-construction loop for one group key: skip the
group when `skipExisting` and every output already exists, raise
`OutputExistsError` when any output exists, and otherwise build the
quantum from the group's outputs and deduplicated inputs. -/
def quantumForKey (skipExisting : Bool) (taskName : String)
    (taskQuantaInputs taskQuantaOutputs : QuantaDict) (qkey : QKey) :
    Except BuildError (Option Quantum) :=
  let outputs := refsFor taskQuantaOutputs qkey
  if skipExisting && outputs.all (fun ref => ref.id.isSome) then
    .ok none
  else if outputs.any (fun ref => ref.id.isSome) then
    .error (.outputExistsError taskName outputs)
  else
    .ok (some { outputs := outputs
                predictedInputs := refsFor taskQuantaInputs qkey })

/-- `for qkey in taskQuantaInputs: ...`: iterate the group keys in
insertion order, collecting the quanta that are not skipped. -/
def buildQuanta (skipExisting : Bool) (taskName : String)
    (taskQuantaInputs taskQuantaOutputs : QuantaDict) :
    Except BuildError (List Quantum) := do
  let opts ← (taskQuantaInputs.map (fun p => p.1)).mapM
    (quantumForKey skipExisting taskName taskQuantaInputs taskQuantaOutputs)
  .ok opts.reduceOption

/-- The whole per-task body of `_makeGraph`'s final loop: group the rows by
the task's quantum dimension key and build the task's quanta. -/
def processTask (skipExisting : Bool) (dimLinks : DimName → List DimName)
    (dimensionVerse : List Row) (taskDss : _TaskDatasetTypes) :
    Except BuildError QuantumGraphTaskNodes := do
  let qlinks := qlinksOf dimLinks taskDss.taskDef
  let acc ← dimensionVerse.foldlM
    (processRow qlinks taskDss.inputs taskDss.outputs) ([], [])
  let quanta ← buildQuanta skipExisting taskDss.taskDef.taskName acc.1 acc.2
  .ok { taskDef := taskDss.taskDef, quanta := quanta }

/-- `for collection in originInfo.getInputCollections(dsType.name): ...`:
first existing reference found in the input collections, if any. -/
def findInitInput (registry : Registry) (originInfo : OriginInfo)
    (dsType : DatasetType) : Option DatasetRef :=
  (originInfo.getInputCollections dsType.name).findSome?
    (fun collection => registry.find collection dsType)

/-- `_makeGraph`. The registry's row enumeration is passed in as
`rowsResult`: `.error msg` models the enumeration raising `LookupError`,
which the builder translates to `PrerequisiteMissingError`. The graph is
then assembled: input/output dataset types, resolved init inputs,
placeholder init outputs and one `QuantumGraphTaskNodes` per task, in
pipeline order. Any raised error aborts the whole build. -/
def _makeGraph (skipExisting : Bool) (dimLinks : DimName → List DimName)
    (registry : Registry) (originInfo : OriginInfo)
    (taskDatasets : List _TaskDatasetTypes)
    (required optionalOut prerequisite initInputs initOutputs : List DatasetType)
    (rowsResult : Except String (List Row)) :
    Except BuildError QuantumGraph := do
  let dimensionVerse ← match rowsResult with
    | .ok rows => Except.ok rows
    | .error msg => Except.error (.prerequisiteMissingError msg)
  let qgraphInitInputs ← initInputs.mapM (fun dsType =>
    match findInitInput registry originInfo dsType with
    | some result => Except.ok result
    | none => Except.error (.graphBuilderError
        ("Could not find initInput " ++ dsType.name ++ " in any input collection")))
  let qgraphInitOutputs := initOutputs.map
    (fun dsType => { datasetType := dsType, dataId := [], id := none : DatasetRef })
  let taskNodes ← taskDatasets.mapM (processTask skipExisting dimLinks dimensionVerse)
  .ok { inputDatasetTypes := setUnion required prerequisite
        outputDatasetTypes := optionalOut
        initInputs := qgraphInitInputs
        initOutputs := qgraphInitOutputs
        taskNodes := taskNodes }

/-! ## Library lemmas about the dict and set embeddings -/

theorem dictGet_mem {K V : Type} [DecidableEq K] {d : List (K × V)} {k : K}
    {v : V} (h : dictGet d k = some v) : (k, v) ∈ d := by
  induction d with
  | nil => simp [dictGet] at h
  | cons p rest ih =>
      obtain ⟨k', v'⟩ := p
      by_cases hk : k' = k
      · subst hk
        simp [dictGet] at h
        simp [h]
      · simp only [dictGet, if_neg hk] at h
        exact List.mem_cons_of_mem _ (ih h)

theorem mem_dictSet {K V : Type} [DecidableEq K] {d : List (K × V)} {k : K}
    {v : V} {p : K × V} (h : p ∈ dictSet d k v) : p = (k, v) ∨ p ∈ d := by
  induction d with
  | nil => simpa [dictSet] using h
  | cons q rest ih =>
      obtain ⟨k', v'⟩ := q
      by_cases hk : k' = k
      · subst hk
        simp only [dictSet, if_pos rfl] at h
        rcases List.mem_cons.mp h with h | h
        · exact Or.inl h
        · exact Or.inr (List.mem_cons_of_mem _ h)
      · simp only [dictSet, if_neg hk] at h
        rcases List.mem_cons.mp h with h | h
        · exact Or.inr (by simp [h])
        · rcases ih h with h | h
          · exact Or.inl h
          · exact Or.inr (List.mem_cons_of_mem _ h)

theorem dictGet_dictSet_self {K V : Type} [DecidableEq K] (d : List (K × V))
    (k : K) (v : V) : dictGet (dictSet d k v) k = some v := by
  induction d with
  | nil => simp [dictGet, dictSet]
  | cons q rest ih =>
      obtain ⟨k', v'⟩ := q
      by_cases hk : k' = k
      · subst hk
        simp [dictGet, dictSet]
      · simp [dictGet, dictSet, hk, ih]

theorem dictGet_dictSet_ne {K V : Type} [DecidableEq K] (d : List (K × V))
    {k k' : K} (v : V) (h : k' ≠ k) :
    dictGet (dictSet d k v) k' = dictGet d k' := by
  have h' : k ≠ k' := Ne.symm h
  induction d with
  | nil => simp [dictGet, dictSet, h']
  | cons q rest ih =>
      obtain ⟨k₀, v₀⟩ := q
      by_cases hk : k₀ = k
      · subst hk
        simp [dictGet, dictSet, h']
      · by_cases hk' : k₀ = k'
        · subst hk'
          simp [dictGet, dictSet, hk]
        · simp [dictGet, dictSet, hk, hk', ih]

theorem mem_setAdd {α : Type} [DecidableEq α] {s : List α} {x y : α} :
    y ∈ setAdd s x ↔ y = x ∨ y ∈ s := by
  unfold setAdd
  by_cases hx : x ∈ s
  · simp only [if_pos hx]
    constructor
    · exact Or.inr
    · rintro (rfl | h)
      · exact hx
      · exact h
  · simp only [if_neg hx, List.mem_append, List.mem_singleton]
    tauto

theorem mem_setDiff {α : Type} [DecidableEq α] {a b : List α} {x : α} :
    x ∈ setDiff a b ↔ x ∈ a ∧ x ∉ b := by
  simp [setDiff]

theorem mem_setInter {α : Type} [DecidableEq α] {a b : List α} {x : α} :
    x ∈ setInter a b ↔ x ∈ a ∧ x ∈ b := by
  simp [setInter]

theorem mem_setUnion {α : Type} [DecidableEq α] {a b : List α} {x : α} :
    x ∈ setUnion a b ↔ x ∈ a ∨ x ∈ b := by
  unfold setUnion
  induction b generalizing a with
  | nil => simp
  | cons y ys ih =>
      simp only [List.foldl_cons, ih, mem_setAdd, List.mem_cons]
      tauto

/-! ## The name invariant of `allDatasetTypes` -/

/-- Every entry of the `allDatasetTypes` dict maps a name to a dataset
type carrying exactly that name. -/
def NameInv (d : List (String × DatasetType)) : Prop :=
  ∀ p ∈ d, (p.2).name = p.1

theorem nameInv_dictSet {d : List (String × DatasetType)} (dt : DatasetType)
    (h : NameInv d) : NameInv (dictSet d dt.name dt) := by
  intro p hp
  rcases mem_dictSet hp with rfl | hp
  · rfl
  · exact h p hp

theorem nameInv_aggCategory (ts : List DatasetType) :
    ∀ (names : List String) (d : List (String × DatasetType)), NameInv d →
      NameInv (aggCategory ts (names, d)).2 := by
  induction ts with
  | nil => intro names d h; exact h
  | cons dt rest ih =>
      intro names d h
      simpa [aggCategory] using
        ih (setAdd names dt.name) (dictSet d dt.name dt) (nameInv_dictSet dt h)

theorem nameInv_aggTask (st : AggState) (t : _TaskDatasetTypes)
    (h : NameInv st.allDatasetTypes) : NameInv (aggTask st t).allDatasetTypes := by
  unfold aggTask
  exact nameInv_aggCategory _ _ _
    (nameInv_aggCategory _ _ _
      (nameInv_aggCategory _ _ _
        (nameInv_aggCategory _ _ _
          (nameInv_aggCategory _ _ _ h))))

theorem nameInv_aggAll (taskDatasets : List _TaskDatasetTypes) :
    NameInv (aggAll taskDatasets).allDatasetTypes := by
  unfold aggAll
  have main : ∀ (ds : List _TaskDatasetTypes) (st : AggState),
      NameInv st.allDatasetTypes → NameInv (ds.foldl aggTask st).allDatasetTypes := by
    intro ds
    induction ds with
    | nil => intro st h; exact h
    | cons t rest ih => intro st h; exact ih _ (nameInv_aggTask st t h)
  exact main taskDatasets {} (by intro p hp; simp at hp)

theorem name_of_dictGet_aggAll {taskDatasets : List _TaskDatasetTypes}
    {n : String} {dt : DatasetType}
    (h : dictGet (aggAll taskDatasets).allDatasetTypes n = some dt) :
    dt.name = n :=
  nameInv_aggAll taskDatasets (n, dt) (dictGet_mem h)

/-- A dataset type resolved through `allDatasetTypes` from a name list has
its name in that list. -/
theorem mem_resolveNames {taskDatasets : List _TaskDatasetTypes}
    {names : List String} {dt : DatasetType}
    (h : dt ∈ names.filterMap (dictGet (aggAll taskDatasets).allDatasetTypes)) :
    dt.name ∈ names := by
  rw [List.mem_filterMap] at h
  obtain ⟨n, hn, hget⟩ := h
  rw [name_of_dictGet_aggAll hget]
  exact hn

theorem makeFullIO_required (ds : List _TaskDatasetTypes) :
    (_makeFullIODatasetTypes ds).required =
      (setDiff (aggAll ds).requiredNames (aggAll ds).optionalNames).filterMap
        (dictGet (aggAll ds).allDatasetTypes) := rfl

theorem makeFullIO_optionalOut (ds : List _TaskDatasetTypes) :
    (_makeFullIODatasetTypes ds).optionalOut =
      (aggAll ds).optionalNames.filterMap (dictGet (aggAll ds).allDatasetTypes) := rfl

theorem makeFullIO_prerequisite (ds : List _TaskDatasetTypes) :
    (_makeFullIODatasetTypes ds).prerequisite =
      (setDiff (aggAll ds).prerequisiteNames (aggAll ds).optionalNames).filterMap
        (dictGet (aggAll ds).allDatasetTypes) := rfl

theorem makeFullIO_initInputs (ds : List _TaskDatasetTypes) :
    (_makeFullIODatasetTypes ds).initInputs =
      (setDiff (aggAll ds).initInputNames (aggAll ds).initOutputNames).filterMap
        (dictGet (aggAll ds).allDatasetTypes) := rfl

theorem makeFullIO_initOutputs (ds : List _TaskDatasetTypes) :
    (_makeFullIODatasetTypes ds).initOutputs =
      (aggAll ds).initOutputNames.filterMap (dictGet (aggAll ds).allDatasetTypes) := rfl

/-- C2: after pipeline-wide aggregation, the required set is disjoint from
the optional (produced) set, the prerequisite set is disjoint from the
optional set, and the initInputs set is disjoint from the initOutputs set:
produced names are subtracted from required and prerequisite names, and
initOutput names from initInput names, before the names are resolved back
to dataset-type instances. -/
theorem fullIODatasetTypes_disjoint (ds : List _TaskDatasetTypes) :
    (∀ dt ∈ (_makeFullIODatasetTypes ds).required,
        dt ∉ (_makeFullIODatasetTypes ds).optionalOut) ∧
    (∀ dt ∈ (_makeFullIODatasetTypes ds).prerequisite,
        dt ∉ (_makeFullIODatasetTypes ds).optionalOut) ∧
    (∀ dt ∈ (_makeFullIODatasetTypes ds).initInputs,
        dt ∉ (_makeFullIODatasetTypes ds).initOutputs) := by
  refine ⟨?_, ?_, ?_⟩
  · intro dt hreq hopt
    rw [makeFullIO_required] at hreq
    rw [makeFullIO_optionalOut] at hopt
    exact (mem_setDiff.mp (mem_resolveNames hreq)).2 (mem_resolveNames hopt)
  · intro dt hpre hopt
    rw [makeFullIO_prerequisite] at hpre
    rw [makeFullIO_optionalOut] at hopt
    exact (mem_setDiff.mp (mem_resolveNames hpre)).2 (mem_resolveNames hopt)
  · intro dt hii hio
    rw [makeFullIO_initInputs] at hii
    rw [makeFullIO_initOutputs] at hio
    exact (mem_setDiff.mp (mem_resolveNames hii)).2 (mem_resolveNames hio)

/-- A two-task pipeline where task `t2` consumes what task `t1` produces. -/
def exC2 : List _TaskDatasetTypes :=
  [ { taskDef := { taskName := "t1", config := { quantum := { dimensions := [] } } }
      inputs := [{ name := "A", dimensions := ["visit"] }]
      outputs := [{ name := "B", dimensions := ["visit"] }]
      initInputs := [{ name := "cfgIn", dimensions := [] }]
      initOutputs := [{ name := "cfgOut", dimensions := [] }]
      perDatasetTypeDimensions := []
      prerequisite := [] }
  , { taskDef := { taskName := "t2", config := { quantum := { dimensions := [] } } }
      inputs := [{ name := "B", dimensions := ["visit"] }]
      outputs := [{ name := "C", dimensions := ["visit"] }]
      initInputs := [{ name := "cfgOut", dimensions := [] }]
      initOutputs := []
      perDatasetTypeDimensions := []
      prerequisite := [{ name := "B", dimensions := ["visit"] }] } ]

/-- Witness for C2 at a concrete pipeline: the produced dataset type `B`
is consumed by the second task and yet is not in the required set. -/
theorem fullIODatasetTypes_disjoint_witness :
    ({ name := "B", dimensions := ["visit"] } : DatasetType) ∈
        (_makeFullIODatasetTypes exC2).optionalOut ∧
    ({ name := "A", dimensions := ["visit"] } : DatasetType) ∈
        (_makeFullIODatasetTypes exC2).required ∧
    ({ name := "A", dimensions := ["visit"] } : DatasetType) ∉
        (_makeFullIODatasetTypes exC2).optionalOut :=
  ⟨by decide, by decide,
    (fullIODatasetTypes_disjoint exC2).1 _ (by decide)⟩

/-- C5: when the catalog's row enumeration raises a lookup failure, the
builder raises `PrerequisiteMissingError` instead of letting the catalog's
native error kind propagate. -/
theorem makeGraph_lookupError_prerequisiteMissing (skipExisting : Bool)
    (dimLinks : DimName → List DimName) (registry : Registry)
    (originInfo : OriginInfo) (taskDatasets : List _TaskDatasetTypes)
    (required optionalOut prerequisite initInputs initOutputs : List DatasetType)
    (msg : String) :
    _makeGraph skipExisting dimLinks registry originInfo taskDatasets
        required optionalOut prerequisite initInputs initOutputs
        (.error msg) =
      .error (.prerequisiteMissingError msg) := rfl

/-- C9: resolving a task implementation never mutates the pipeline's
stored `TaskDef`. Over the object store, every previously stored
definition is unchanged; an already resolved definition is returned as the
very same object; an unresolved one is copied, and the copy differs from
the original only in `taskClass` (now the loaded class) and `taskName`
(now canonicalized). -/
theorem loadTaskClass_neverMutates (factory : TaskFactory)
    (store : List TaskDef) (i : Nat) (taskDef : TaskDef)
    (h : store[i]? = some taskDef) :
    (∀ j, j < store.length →
        (loadTaskClassStore factory store i).1[j]? = store[j]?) ∧
    (taskDef.taskClass.isSome →
        loadTaskClassStore factory store i = (store, i) ∧
        _loadTaskClass factory taskDef = taskDef) ∧
    (taskDef.taskClass = none →
        (loadTaskClassStore factory store i).1[(loadTaskClassStore factory store i).2]? =
          some (_loadTaskClass factory taskDef) ∧
        (_loadTaskClass factory taskDef).label = taskDef.label ∧
        (_loadTaskClass factory taskDef).config = taskDef.config ∧
        (_loadTaskClass factory taskDef).taskClass =
          some (factory.loadTaskClass taskDef.taskName).1 ∧
        (_loadTaskClass factory taskDef).taskName =
          (factory.loadTaskClass taskDef.taskName).2) := by
  cases hc : taskDef.taskClass with
  | some c =>
      have hs : loadTaskClassStore factory store i = (store, i) := by
        simp [loadTaskClassStore, h, hc]
      refine ⟨?_, ?_, ?_⟩
      · intro j _
        rw [hs]
      · intro _
        exact ⟨hs, by simp [_loadTaskClass, hc]⟩
      · intro hn
        simp [hc] at hn
  | none =>
      have hs : loadTaskClassStore factory store i =
          (store ++ [_loadTaskClass factory taskDef], store.length) := by
        simp [loadTaskClassStore, h, hc]
      refine ⟨?_, ?_, ?_⟩
      · intro j hj
        rw [hs]
        exact List.getElem?_append_left hj
      · intro hsome
        simp [hc] at hsome
      · intro _
        refine ⟨?_, by simp [_loadTaskClass, hc], by simp [_loadTaskClass, hc],
          by simp [_loadTaskClass, hc], by simp [_loadTaskClass, hc]⟩
        rw [hs]
        exact List.getElem?_concat_length _ _

/-- The violation test of `_extractPerDatasetTypeDimensions`:
`not commonTaskDimensions.isdisjoint(perDatasetTypeDimensions)`. -/
def dimensionConflict (per : List DimName) (t : _TaskDatasetTypes) : Bool :=
  decide (setInter (commonTaskDimensions t) per ≠ [])

/-- C6 (amended): when some task's common dimension usage overlaps the
pipeline-wide per-DatasetType dimension set, the builder fails fast at the
first such task with an error carrying that task's name and the
(non-empty) overlap — but the error raised is a `ValueError`, which does
not derive from `GraphBuilderError`. -/
theorem extractPerDatasetTypeDimensions_conflict
    (taskDatasets : List _TaskDatasetTypes) (t : _TaskDatasetTypes)
    (h : taskDatasets.find?
        (dimensionConflict (pipelinePerDatasetTypeDimensions taskDatasets)) = some t) :
    _extractPerDatasetTypeDimensions taskDatasets =
      .error (.valueErrorDimensionConflict t.taskDef.taskName
        (setInter (commonTaskDimensions t)
          (pipelinePerDatasetTypeDimensions taskDatasets))) ∧
    setInter (commonTaskDimensions t)
        (pipelinePerDatasetTypeDimensions taskDatasets) ≠ [] ∧
    t ∈ taskDatasets ∧
    (BuildError.valueErrorDimensionConflict t.taskDef.taskName
        (setInter (commonTaskDimensions t)
          (pipelinePerDatasetTypeDimensions taskDatasets))).isGraphBuilderError
      = false := by
  have h' : List.find? (fun t => decide (setInter (commonTaskDimensions t)
      (pipelinePerDatasetTypeDimensions taskDatasets) ≠ [])) taskDatasets =
      some t := h
  refine ⟨?_, ?_, List.mem_of_find?_eq_some h, rfl⟩
  · show (match List.find? (fun t => decide (setInter (commonTaskDimensions t)
        (pipelinePerDatasetTypeDimensions taskDatasets) ≠ [])) taskDatasets with
      | some t => Except.error (BuildError.valueErrorDimensionConflict
          t.taskDef.taskName (setInter (commonTaskDimensions t)
            (pipelinePerDatasetTypeDimensions taskDatasets)))
      | none => Except.ok (pipelinePerDatasetTypeDimensions taskDatasets)) = _
    rw [h']
  · have hp := List.find?_some h'
    exact of_decide_eq_true hp

/-- A pipeline in which `task1` declares dimension `d` per-DatasetType
while `task2` uses `d` as a common dimension of its input. -/
def exC6 : List _TaskDatasetTypes :=
  [ { taskDef := { taskName := "task1", config := { quantum := { dimensions := [] } } }
      inputs := []
      outputs := []
      initInputs := []
      initOutputs := []
      perDatasetTypeDimensions := ["d"]
      prerequisite := [] }
  , { taskDef := { taskName := "task2", config := { quantum := { dimensions := [] } } }
      inputs := [{ name := "A", dimensions := ["d"] }]
      outputs := []
      initInputs := []
      initOutputs := []
      perDatasetTypeDimensions := []
      prerequisite := [] } ]

/-- C6 counterexample: on `exC6` the dimension conflict is detected, but
the raised error is the `ValueError` of `_extractPerDatasetTypeDimensions`,
which is not part of the graph-builder taxonomy — refuting the claim that
the build fails with an error deriving from `GraphBuilderError`. -/
theorem extractPerDatasetTypeDimensions_conflict_not_taxonomy :
    _extractPerDatasetTypeDimensions exC6 =
      .error (.valueErrorDimensionConflict "task2" ["d"]) ∧
    (BuildError.valueErrorDimensionConflict "task2" ["d"]).isGraphBuilderError
      = false :=
  ⟨rfl, rfl⟩

/-- Witness for the amended C6 at the concrete pipeline `exC6`. -/
theorem extractPerDatasetTypeDimensions_conflict_witness :
    (exC6.find? (dimensionConflict (pipelinePerDatasetTypeDimensions exC6)) =
      some (exC6.get ⟨1, by decide⟩)) ∧
    _extractPerDatasetTypeDimensions exC6 =
      .error (.valueErrorDimensionConflict
        (exC6.get ⟨1, by decide⟩).taskDef.taskName
        (setInter (commonTaskDimensions (exC6.get ⟨1, by decide⟩))
          (pipelinePerDatasetTypeDimensions exC6))) :=
  ⟨rfl, (extractPerDatasetTypeDimensions_conflict exC6 _ rfl).1⟩

/-! ## C8: which instance becomes canonical for a duplicated name -/

/-- All dataset types declared by the pipeline, in the exact order the
aggregation loop of `_makeFullIODatasetTypes` visits them. -/
def declaredTypes (taskDatasets : List _TaskDatasetTypes) : List DatasetType :=
  (taskDatasets.map (fun t =>
    t.inputs ++ t.outputs ++ t.prerequisite ++ t.initInputs ++ t.initOutputs)).flatten

/-- One `allDatasetTypes[dsType.name] = dsType` assignment. -/
def registerType (d : List (String × DatasetType)) (dt : DatasetType) :
    List (String × DatasetType) :=
  dictSet d dt.name dt

theorem aggCategory_snd (ts : List DatasetType) :
    ∀ (names : List String) (d : List (String × DatasetType)),
      (aggCategory ts (names, d)).2 = ts.foldl registerType d := by
  induction ts with
  | nil => intro names d; rfl
  | cons dt rest ih =>
      intro names d
      simpa [aggCategory, registerType] using ih (setAdd names dt.name) (dictSet d dt.name dt)

theorem aggTask_allDatasetTypes (st : AggState) (t : _TaskDatasetTypes) :
    (aggTask st t).allDatasetTypes =
      (t.inputs ++ t.outputs ++ t.prerequisite ++ t.initInputs ++
        t.initOutputs).foldl registerType st.allDatasetTypes := by
  simp [aggTask, aggCategory_snd, List.foldl_append]

theorem aggAll_allDatasetTypes (taskDatasets : List _TaskDatasetTypes) :
    (aggAll taskDatasets).allDatasetTypes =
      (declaredTypes taskDatasets).foldl registerType [] := by
  unfold aggAll declaredTypes
  have main : ∀ (ds : List _TaskDatasetTypes) (st : AggState),
      (ds.foldl aggTask st).allDatasetTypes =
        ((ds.map (fun t => t.inputs ++ t.outputs ++ t.prerequisite ++
          t.initInputs ++ t.initOutputs)).flatten).foldl registerType
          st.allDatasetTypes := by
    intro ds
    induction ds with
    | nil => intro st; rfl
    | cons t rest ih =>
        intro st
        simp [ih, aggTask_allDatasetTypes, List.foldl_append]
  exact main taskDatasets {}

theorem dictGet_foldl_registerType (l : List DatasetType)
    (d : List (String × DatasetType)) (n : String) :
    dictGet (l.foldl registerType d) n =
      (l.reverse.find? (fun dt => decide (dt.name = n))).or (dictGet d n) := by
  induction l generalizing d with
  | nil => simp
  | cons dt rest ih =>
      simp only [List.foldl_cons, ih, List.reverse_cons, List.find?_append]
      cases hfind : rest.reverse.find? (fun dt => decide (dt.name = n)) with
      | some x => simp
      | none =>
          simp only [Option.none_or]
          by_cases hn : dt.name = n
          · subst hn
            simp [registerType, dictGet_dictSet_self]
          · simp [registerType, dictGet_dictSet_ne _ _ (Ne.symm hn), hn]

/-- C8 (amended): for every name, the canonical `DatasetType` instance in
`allDatasetTypes` is the LAST declaration with that name in aggregation
order (the dict assignment `allDatasetTypes[dsType.name] = dsType`
overwrites earlier entries), i.e. the first hit when searching the
declarations backwards — not the first-seen instance. -/
theorem allDatasetTypes_lastSeenWins (taskDatasets : List _TaskDatasetTypes)
    (n : String) :
    dictGet (aggAll taskDatasets).allDatasetTypes n =
      (declaredTypes taskDatasets).reverse.find?
        (fun dt => decide (dt.name = n)) := by
  rw [aggAll_allDatasetTypes, dictGet_foldl_registerType]
  simp [dictGet]

/-- A pipeline whose two tasks declare dataset types with the same name
`X` but different dimension signatures. -/
def exC8 : List _TaskDatasetTypes :=
  [ { taskDef := { taskName := "t1", config := { quantum := { dimensions := [] } } }
      inputs := [{ name := "X", dimensions := ["a"] }]
      outputs := []
      initInputs := []
      initOutputs := []
      perDatasetTypeDimensions := []
      prerequisite := [] }
  , { taskDef := { taskName := "t2", config := { quantum := { dimensions := [] } } }
      inputs := [{ name := "X", dimensions := ["b"] }]
      outputs := []
      initInputs := []
      initOutputs := []
      perDatasetTypeDimensions := []
      prerequisite := [] } ]

/-- C8 counterexample: on `exC8` the canonical instance chosen for name
`X` is the one declared by the LATEST task (`dimensions = ["b"]`), and the
first-seen instance (`dimensions = ["a"]`) is absent from the aggregated
required set — refuting "first-seen wins". -/
theorem allDatasetTypes_not_firstSeen :
    (_makeFullIODatasetTypes exC8).required =
      [{ name := "X", dimensions := ["b"] }] ∧
    ({ name := "X", dimensions := ["a"] } : DatasetType) ∉
      (_makeFullIODatasetTypes exC8).required :=
  ⟨rfl, by decide⟩

/-! ## Concrete one-task scenario: `A → B`, one row, `B` already stored -/

/-- Input dataset type `A` of the scenario task. -/
def dtA : DatasetType := { name := "A", dimensions := ["visit"] }

/-- Output dataset type `B` of the scenario task. -/
def dtB : DatasetType := { name := "B", dimensions := ["visit"] }

/-- The scenario task: consumes `A`, produces `B`, quantum over `visit`. -/
def exTaskC3 : _TaskDatasetTypes :=
  { taskDef := { taskName := "tC3", config := { quantum := { dimensions := ["visit"] } } }
    inputs := [dtA]
    outputs := [dtB]
    initInputs := []
    initOutputs := []
    perDatasetTypeDimensions := []
    prerequisite := [] }

/-- A registry whose dimensions each link only to themselves and that
stores nothing. -/
def exRegistry : Registry :=
  { dimLinks := fun d => [d], find := fun _ _ => none }

/-- Origin info with no input collections. -/
def exOrigin : OriginInfo := { getInputCollections := fun _ => [] }

/-- The row's reference for `A`; not yet stored. -/
def refA : DatasetRef := { datasetType := dtA, dataId := [("visit", 1)], id := none }

/-- The row's reference for `B`; already stored (`id` is set). -/
def refB : DatasetRef := { datasetType := dtB, dataId := [("visit", 1)], id := some 5 }

/-- The single catalog row of the scenario. -/
def exRowC3 : Row := { dataId := [("visit", 1)], datasetRefs := [(dtA, refA), (dtB, refB)] }

/-- C3: for a task group all of whose collected output references already
exist, the skip-existing policy silently drops the group (no work unit, no
error); in particular, for one task `A → B`, one row whose `B` reference
already exists, and skip-existing enabled, the built graph has zero work
units for that task. -/
theorem quantumForKey_allExist_skip :
    (∀ (taskName : String) (taskQuantaInputs taskQuantaOutputs : QuantaDict)
        (qkey : QKey),
      (∀ ref ∈ refsFor taskQuantaOutputs qkey, ref.id.isSome = true) →
      quantumForKey true taskName taskQuantaInputs taskQuantaOutputs qkey =
        .ok none) ∧
    _makeGraph true exRegistry.dimLinks exRegistry exOrigin [exTaskC3]
        [dtA] [dtB] [] [] [] (.ok [exRowC3]) =
      .ok { inputDatasetTypes := [dtA], outputDatasetTypes := [dtB]
            initInputs := [], initOutputs := []
            taskNodes := [{ taskDef := exTaskC3.taskDef, quanta := [] }] } := by
  constructor
  · intro taskName tqi tqo qkey h
    have hall : (refsFor tqo qkey).all (fun ref => ref.id.isSome) = true :=
      List.all_eq_true.mpr h
    simp [quantumForKey, hall]
  · rfl

/-- The output-side accumulation dict of the scenario's only group. -/
def exTqoC3 : QuantaDict :=
  [([("visit", some 1)], [(dtB, [([("visit", 1)], refB)])])]

/-- Witness for C3 at the scenario's concrete group: its single collected
output `refB` exists, and the group yields no quantum. -/
theorem quantumForKey_allExist_skip_witness :
    (∀ ref ∈ refsFor exTqoC3 [("visit", some 1)], ref.id.isSome = true) ∧
    quantumForKey true "tC3" [] exTqoC3 [("visit", some 1)] = .ok none :=
  ⟨by decide, quantumForKey_allExist_skip.1 "tC3" [] exTqoC3 _ (by decide)⟩

/-- C4: when some collected output of a group already exists but the group
is not skipped (skip-existing disabled, or only part of the outputs
exist), the builder raises `OutputExistsError` carrying the task name and
the collected output references (which include every pre-existing,
conflicting one), and the `Except` result carries no graph at all; in
particular the `A → B` scenario with skip-existing disabled fails with
`OutputExistsError` naming `B`'s reference. -/
theorem quantumForKey_partialExist_raises :
    (∀ (skipExisting : Bool) (taskName : String)
        (taskQuantaInputs taskQuantaOutputs : QuantaDict) (qkey : QKey),
      (∃ ref ∈ refsFor taskQuantaOutputs qkey, ref.id.isSome = true) →
      ¬(skipExisting = true ∧
          ∀ ref ∈ refsFor taskQuantaOutputs qkey, ref.id.isSome = true) →
      quantumForKey skipExisting taskName taskQuantaInputs taskQuantaOutputs qkey =
        .error (.outputExistsError taskName (refsFor taskQuantaOutputs qkey))) ∧
    _makeGraph false exRegistry.dimLinks exRegistry exOrigin [exTaskC3]
        [dtA] [dtB] [] [] [] (.ok [exRowC3]) =
      .error (.outputExistsError "tC3" [refB]) := by
  constructor
  · intro skipExisting taskName tqi tqo qkey h1 h2
    obtain ⟨r, hr, hrid⟩ := h1
    have hany : (refsFor tqo qkey).any (fun ref => ref.id.isSome) = true :=
      List.any_eq_true.mpr ⟨r, hr, hrid⟩
    have hcond : (skipExisting &&
        (refsFor tqo qkey).all (fun ref => ref.id.isSome)) = false := by
      cases skipExisting with
      | false => rfl
      | true =>
          cases hall : (refsFor tqo qkey).all (fun ref => ref.id.isSome) with
          | false => rfl
          | true => exact absurd ⟨rfl, List.all_eq_true.mp hall⟩ h2
    simp [quantumForKey, hcond, hany]
  · rfl

/-- Witness for C4 at the scenario's concrete group with skip-existing
disabled. -/
theorem quantumForKey_partialExist_raises_witness :
    (∃ ref ∈ refsFor exTqoC3 [("visit", some 1)], ref.id.isSome = true) ∧
    ¬((false = true) ∧
        ∀ ref ∈ refsFor exTqoC3 [("visit", some 1)], ref.id.isSome = true) ∧
    quantumForKey false "tC3" [] exTqoC3 [("visit", some 1)] =
      .error (.outputExistsError "tC3" (refsFor exTqoC3 [("visit", some 1)])) :=
  ⟨by decide, by decide,
    quantumForKey_partialExist_raises.1 false "tC3" [] exTqoC3 _
      (by decide) (by decide)⟩

/-! ## C7: a catalog returning zero rows -/

/-- `mapM` over `Except` succeeds pointwise: when every element maps to
`ok` of a described value, the whole traversal returns the mapped list. -/
theorem exceptMapM_ok {α β ε : Type} (f : α → Except ε β) (g : α → β)
    (l : List α) (h : ∀ a ∈ l, f a = .ok (g a)) :
    l.mapM f = .ok (l.map g) := by
  induction l with
  | nil => rfl
  | cons a as ih =>
      rw [List.mapM_cons, h a (by simp),
        ih (fun x hx => h x (List.mem_cons_of_mem _ hx))]
      rfl

/-- An init-input dataset type that no input collection provides. -/
def dtInit : DatasetType := { name := "cfg", dimensions := [] }

/-- C7 counterexample: even with a catalog returning zero rows, graph
construction can fail — an init-input dataset type found in no input
collection raises `GraphBuilderError` before any task node is built —
refuting "for every pipeline, zero rows implies success". -/
theorem makeGraph_zeroRows_canFail :
    _makeGraph true exRegistry.dimLinks exRegistry exOrigin [exTaskC3]
        [] [] [] [dtInit] [] (.ok []) =
      .error (.graphBuilderError
        "Could not find initInput cfg in any input collection") := rfl

/-- C7 (amended): when the catalog returns zero rows AND every
pipeline-wide init-input resolves in some input collection, construction
succeeds and the graph holds exactly one `QuantumGraphTaskNodes` per task,
each with an empty quanta list, appended in pipeline task order. -/
theorem makeGraph_zeroRows (skipExisting : Bool)
    (dimLinks : DimName → List DimName) (registry : Registry)
    (originInfo : OriginInfo) (taskDatasets : List _TaskDatasetTypes)
    (required optionalOut prerequisite initInputs initOutputs : List DatasetType)
    (h : ∀ dt ∈ initInputs, findInitInput registry originInfo dt ≠ none) :
    ∃ g, _makeGraph skipExisting dimLinks registry originInfo taskDatasets
        required optionalOut prerequisite initInputs initOutputs (.ok []) =
          .ok g ∧
      g.taskNodes = taskDatasets.map
        (fun t => { taskDef := t.taskDef, quanta := [] }) := by
  have hinits : initInputs.mapM (fun dsType =>
      (match findInitInput registry originInfo dsType with
      | some result => Except.ok result
      | none => Except.error (BuildError.graphBuilderError
          ("Could not find initInput " ++ dsType.name ++
            " in any input collection")) : Except BuildError DatasetRef)) =
      .ok (initInputs.map (fun dsType =>
        (findInitInput registry originInfo dsType).getD
          { datasetType := dsType, dataId := [], id := none })) := by
    apply exceptMapM_ok
    intro dt hdt
    cases hf : findInitInput registry originInfo dt with
    | none => exact absurd hf (h dt hdt)
    | some r => simp [hf]
  have hnodes : taskDatasets.mapM (processTask skipExisting dimLinks []) =
      .ok (taskDatasets.map (fun t => { taskDef := t.taskDef, quanta := [] })) :=
    exceptMapM_ok _ _ _ (fun t _ => rfl)
  refine ⟨{ inputDatasetTypes := setUnion required prerequisite
            outputDatasetTypes := optionalOut
            initInputs := initInputs.map (fun dsType =>
              (findInitInput registry originInfo dsType).getD
                { datasetType := dsType, dataId := [], id := none })
            initOutputs := initOutputs.map (fun dsType =>
              { datasetType := dsType, dataId := [], id := none })
            taskNodes := taskDatasets.map
              (fun t => { taskDef := t.taskDef, quanta := [] }) }, ?_, rfl⟩
  calc _makeGraph skipExisting dimLinks registry originInfo taskDatasets
        required optionalOut prerequisite initInputs initOutputs (.ok []) =
      ((initInputs.mapM (fun dsType =>
          (match findInitInput registry originInfo dsType with
          | some result => Except.ok result
          | none => Except.error (BuildError.graphBuilderError
              ("Could not find initInput " ++ dsType.name ++
                " in any input collection")) : Except BuildError DatasetRef))) >>=
        fun qgraphInitInputs =>
        ((taskDatasets.mapM (processTask skipExisting dimLinks [])) >>=
          fun taskNodes =>
            Except.ok { inputDatasetTypes := setUnion required prerequisite
                        outputDatasetTypes := optionalOut
                        initInputs := qgraphInitInputs
                        initOutputs := initOutputs.map (fun dsType =>
                          { datasetType := dsType, dataId := [], id := none })
                        taskNodes := taskNodes })) := rfl
    _ = _ := by rw [hinits, hnodes]; rfl

/-- Witness for the amended C7: the scenario task with no init-inputs and
zero rows builds a graph with one empty task node. -/
theorem makeGraph_zeroRows_witness :
    (∀ dt ∈ ([] : List DatasetType), findInitInput exRegistry exOrigin dt ≠ none) ∧
    ∃ g, _makeGraph true exRegistry.dimLinks exRegistry exOrigin [exTaskC3]
        [dtA] [dtB] [] [] [] (.ok []) = .ok g ∧
      g.taskNodes = [exTaskC3].map (fun t => { taskDef := t.taskDef, quanta := [] }) :=
  ⟨by simp, makeGraph_zeroRows true exRegistry.dimLinks exRegistry exOrigin
    [exTaskC3] [dtA] [dtB] [] [] [] (by simp)⟩

/-! ## Inversion lemmas for `Except` computations -/

theorem exceptBind_ok {ε α β : Type} {e : Except ε α} {f : α → Except ε β}
    {b : β} (h : (e >>= f) = .ok b) : ∃ a, e = .ok a ∧ f a = .ok b := by
  cases e with
  | error e₀ => exact Except.noConfusion (show Except.error e₀ = Except.ok b from h)
  | ok a => exact ⟨a, rfl, h⟩

theorem foldlM_cons_ok {σ α ε : Type} {f : σ → α → Except ε σ} {init : σ}
    {x : α} {l : List α} {r : σ}
    (h : (x :: l).foldlM f init = .ok r) :
    ∃ s, f init x = .ok s ∧ l.foldlM f s = .ok r :=
  exceptBind_ok (show (f init x >>= fun s => l.foldlM f s) = .ok r from h)

/-- Inversion of one successful `processRow` step: both `addRefs` calls
succeeded and the two accumulation dicts were updated at the row's group
key. -/
theorem processRow_ok_shape {qlinks : List DimName}
    {inputs outputs : List DatasetType} {st : QuantaDict × QuantaDict}
    {row : Row} {st' : QuantaDict × QuantaDict}
    (h : processRow qlinks inputs outputs st row = .ok st') :
    ∃ qin qout,
      addRefs row inputs ((dictGet st.1 (qkeyOf qlinks row)).getD []) = .ok qin ∧
      addRefs row outputs ((dictGet st.2 (qkeyOf qlinks row)).getD []) = .ok qout ∧
      st' = (dictSet st.1 (qkeyOf qlinks row) qin,
             dictSet st.2 (qkeyOf qlinks row) qout) := by
  have h1 : (addRefs row inputs ((dictGet st.1 (qkeyOf qlinks row)).getD []) >>=
      fun qinputs =>
        (addRefs row outputs ((dictGet st.2 (qkeyOf qlinks row)).getD []) >>=
          fun qoutputs =>
            Except.ok (dictSet st.1 (qkeyOf qlinks row) qinputs,
              dictSet st.2 (qkeyOf qlinks row) qoutputs))) = .ok st' := h
  obtain ⟨qin, hqin, h2⟩ := exceptBind_ok h1
  obtain ⟨qout, hqout, h3⟩ := exceptBind_ok h2
  exact ⟨qin, qout, hqin, hqout, (Except.ok.inj h3).symm⟩

/-! ## C10: a task that declares no output dataset types -/

theorem reduceOption_map_none {α β : Type} (l : List α) :
    (l.map (fun _ => (none : Option β))).reduceOption = [] := by
  induction l with
  | nil => rfl
  | cons x xs ih => simp [List.reduceOption] at ih ⊢

theorem reduceOption_map_some {α β : Type} (l : List α) (f : α → Option β)
    (hf : ∀ x, ∃ b, f x = some b) :
    (l.map f).reduceOption.length = l.length := by
  induction l with
  | nil => rfl
  | cons x xs ih =>
      obtain ⟨b, hb⟩ := hf x
      simpa [List.reduceOption, hb] using ih

theorem reduceOption_map_some_eq {α β : Type} (l : List α) (f : α → β) :
    (l.map (fun x => some (f x))).reduceOption = l.map f := by
  induction l with
  | nil => rfl
  | cons x xs ih => simpa [List.reduceOption] using ih

/-- When every group is skipped, `buildQuanta` returns no quanta. -/
theorem buildQuanta_skip_all {taskName : String} {tqi tqo : QuantaDict}
    (hkeys : ∀ qkey ∈ tqi.map (fun p => p.1),
      quantumForKey true taskName tqi tqo qkey = .ok none) :
    buildQuanta true taskName tqi tqo = .ok [] := by
  unfold buildQuanta
  rw [exceptMapM_ok _ (fun _ => (none : Option Quantum)) _ hkeys]
  show Except.ok (((tqi.map (fun p => p.1)).map
    (fun _ => (none : Option Quantum))).reduceOption) = _
  rw [reduceOption_map_none]

/-- When every group yields a quantum, `buildQuanta` returns one quantum
per group key, in insertion order. -/
theorem buildQuanta_of_some {skipExisting : Bool} {taskName : String}
    {tqi tqo : QuantaDict} {g : QKey → Quantum}
    (hkeys : ∀ qkey ∈ tqi.map (fun p => p.1),
      quantumForKey skipExisting taskName tqi tqo qkey = .ok (some (g qkey))) :
    buildQuanta skipExisting taskName tqi tqo =
      .ok ((tqi.map (fun p => p.1)).map g) := by
  unfold buildQuanta
  rw [exceptMapM_ok _ (fun qkey => some (g qkey)) _ hkeys]
  show Except.ok (((tqi.map (fun p => p.1)).map
    (fun qkey => some (g qkey))).reduceOption) = _
  rw [reduceOption_map_some_eq]

/-- Row processing with an empty output-type list leaves every entry of
the output accumulation dict empty: the step writes back the (empty)
pre-existing per-group dict. -/
theorem processRows_noOutputs {qlinks : List DimName}
    {inputs : List DatasetType} {rows : List Row}
    {st st' : QuantaDict × QuantaDict}
    (hinv : ∀ p ∈ st.2, p.2 = ([] : TypeDict))
    (h : rows.foldlM (processRow qlinks inputs []) st = .ok st') :
    ∀ p ∈ st'.2, p.2 = ([] : TypeDict) := by
  induction rows generalizing st with
  | nil =>
      cases h
      exact hinv
  | cons row rest ih =>
      obtain ⟨st₁, hst₁, hrest⟩ := foldlM_cons_ok h
      obtain ⟨qin, qout, _, hqout, hshape⟩ := processRow_ok_shape hst₁
      have hqout' : ((dictGet st.2 (qkeyOf qlinks row)).getD []) = qout :=
        Except.ok.inj hqout
      subst hshape
      refine ih ?_ hrest
      intro p hp
      rcases mem_dictSet hp with rfl | hp
      · show qout = []
        rw [← hqout']
        cases hdg : dictGet st.2 (qkeyOf qlinks row) with
        | none => rfl
        | some td =>
            have htd := hinv _ (dictGet_mem hdg)
            simpa using htd
      · exact hinv p hp

/-- When every entry of the output accumulation dict is empty, every group
collects an empty output reference list. -/
theorem refsFor_empty {d : QuantaDict}
    (hinv : ∀ p ∈ d, p.2 = ([] : TypeDict)) (qkey : QKey) :
    refsFor d qkey = [] := by
  unfold refsFor
  cases hdg : dictGet d qkey with
  | none => rfl
  | some td =>
      have htd : td = ([] : TypeDict) := hinv _ (dictGet_mem hdg)
      subst htd
      rfl

/-- C10: for a task declaring no output dataset types, every group's
collected output list is empty, so with the skip-existing policy (the
constructor's default) the all-outputs-exist test is vacuously true and
every group is silently dropped — the task's node has zero work units
regardless of how many rows matched; with skip-existing disabled the same
groups all become work units carrying predicted inputs and no outputs. -/
theorem taskWithoutOutputs (dimLinks : DimName → List DimName)
    (rows : List Row) (t : _TaskDatasetTypes) (hout : t.outputs = [])
    (tqi tqo : QuantaDict)
    (h : rows.foldlM
        (processRow (qlinksOf dimLinks t.taskDef) t.inputs t.outputs)
        ([], []) = .ok (tqi, tqo)) :
    processTask true dimLinks rows t =
      .ok { taskDef := t.taskDef, quanta := [] } ∧
    processTask false dimLinks rows t =
      .ok { taskDef := t.taskDef,
            quanta := tqi.map (fun p =>
              { outputs := [], predictedInputs := refsFor tqi p.1 }) } ∧
    (∀ (taskFactory : TaskFactory) (registry : Registry),
      ({ taskFactory := taskFactory, registry := registry } :
        GraphBuilder).skipExisting = true) := by
  rw [hout] at h
  have hinv : ∀ p ∈ tqo, p.2 = ([] : TypeDict) :=
    processRows_noOutputs (by intro p hp; cases hp) h
  have houts : ∀ qkey, refsFor tqo qkey = [] := refsFor_empty hinv
  refine ⟨?_, ?_, fun _ _ => rfl⟩
  · have hbuild : buildQuanta true t.taskDef.taskName tqi tqo = .ok [] :=
      buildQuanta_skip_all
        (fun qkey _ => by simp [quantumForKey, houts qkey])
    have hchain : (rows.foldlM
        (processRow (qlinksOf dimLinks t.taskDef) t.inputs t.outputs)
        ([], []) >>= fun acc =>
          (buildQuanta true t.taskDef.taskName acc.1 acc.2 >>=
            fun quanta => Except.ok ({ taskDef := t.taskDef, quanta := quanta }
              : QuantumGraphTaskNodes))) =
        .ok ({ taskDef := t.taskDef, quanta := [] } : QuantumGraphTaskNodes) := by
      rw [hout, h]
      show (buildQuanta true t.taskDef.taskName tqi tqo >>=
        fun quanta => Except.ok ({ taskDef := t.taskDef, quanta := quanta }
          : QuantumGraphTaskNodes)) = _
      rw [hbuild]
      rfl
    exact hchain
  · have hkeys : ∀ qkey ∈ tqi.map (fun p => p.1),
        quantumForKey false t.taskDef.taskName tqi tqo qkey =
          .ok (some { outputs := [], predictedInputs := refsFor tqi qkey }) :=
      fun qkey _ => by simp [quantumForKey, houts qkey]
    have hbuild : buildQuanta false t.taskDef.taskName tqi tqo =
        .ok ((tqi.map (fun p => p.1)).map (fun qkey =>
          ({ outputs := [], predictedInputs := refsFor tqi qkey } : Quantum))) :=
      buildQuanta_of_some hkeys
    have hchain : (rows.foldlM
        (processRow (qlinksOf dimLinks t.taskDef) t.inputs t.outputs)
        ([], []) >>= fun acc =>
          (buildQuanta false t.taskDef.taskName acc.1 acc.2 >>=
            fun quanta => Except.ok ({ taskDef := t.taskDef, quanta := quanta }
              : QuantumGraphTaskNodes))) =
        .ok ({ taskDef := t.taskDef,
               quanta := tqi.map (fun p =>
                 { outputs := [], predictedInputs := refsFor tqi p.1 }) }
          : QuantumGraphTaskNodes) := by
      have hmap : (tqi.map (fun p => p.1)).map (fun qkey =>
          ({ outputs := [], predictedInputs := refsFor tqi qkey } : Quantum)) =
          tqi.map (fun p =>
            ({ outputs := [], predictedInputs := refsFor tqi p.1 } : Quantum)) := by
        rw [List.map_map]
        rfl
      rw [hout, h]
      show (buildQuanta false t.taskDef.taskName tqi tqo >>=
        fun quanta => Except.ok ({ taskDef := t.taskDef, quanta := quanta }
          : QuantumGraphTaskNodes)) = _
      rw [hbuild, ← hmap]
      rfl
    exact hchain

/-- The scenario task with no outputs: consumes `A`, produces nothing. -/
def exTaskC10 : _TaskDatasetTypes :=
  { taskDef := { taskName := "tC10",
                 config := { quantum := { dimensions := ["visit"] } } }
    inputs := [dtA]
    outputs := []
    initInputs := []
    initOutputs := []
    perDatasetTypeDimensions := []
    prerequisite := [] }

/-- The input accumulation dict produced by the single scenario row for
`exTaskC10`. -/
def exTqiC10 : QuantaDict :=
  [([("visit", some 1)], [(dtA, [([("visit", 1)], refA)])])]

/-- Witness for C10: one matching row, a task with no outputs — with the
default policy its node has zero work units. -/
theorem taskWithoutOutputs_witness :
    exTaskC10.outputs = [] ∧
    [exRowC3].foldlM
        (processRow (qlinksOf exRegistry.dimLinks exTaskC10.taskDef)
          exTaskC10.inputs exTaskC10.outputs) ([], []) =
      .ok (exTqiC10, [([("visit", some 1)], [])]) ∧
    processTask true exRegistry.dimLinks [exRowC3] exTaskC10 =
      .ok { taskDef := exTaskC10.taskDef, quanta := [] } :=
  ⟨rfl, rfl,
    (taskWithoutOutputs exRegistry.dimLinks [exRowC3] exTaskC10 rfl
      exTqiC10 [([("visit", some 1)], [])] rfl).1⟩

/-- An unresolved task definition used by the C9 witness. -/
def exTaskDef : TaskDef :=
  { taskName := "mod.Task", taskClass := none, label := "t"
    config := { quantum := { dimensions := [] } } }

/-- A task factory used by the C9 witness. -/
def exFactory : TaskFactory :=
  { loadTaskClass := fun n => (n ++ ".class", "qualified." ++ n) }

/-- Witness for C9: over a one-element store holding an unresolved task
definition, resolution leaves the stored definition unchanged. -/
theorem loadTaskClass_neverMutates_witness :
    ([exTaskDef][0]? = some exTaskDef) ∧
    (loadTaskClassStore exFactory [exTaskDef] 0).1[0]? = some exTaskDef :=
  ⟨rfl, (loadTaskClass_neverMutates exFactory [exTaskDef] 0 exTaskDef rfl).1 0
    (by decide)⟩

/-! ## C1: grouping rows by quantum key and deduplicating references

Specification-side definitions: for a fixed quantum key, the group of a
key is the set of rows projecting onto it, and `accRefs` is the
deduplicated union (by `_datasetRefKey` coordinate identity) of the
references those rows carry for one dataset type. -/

/-- The reference dict accumulated for group `qkey` and type `dsType`. -/
def groupRefs (d : QuantaDict) (qkey : QKey) (dsType : DatasetType) : RefDict :=
  match dictGet d qkey with
  | some td => (dictGet td dsType).getD []
  | none => []

/-- The rows whose projection onto the quantum key equals `qkey`. -/
def groupRows (qlinks : List DimName) (rows : List Row) (qkey : QKey) :
    List Row :=
  rows.filter (fun row => decide (qkeyOf qlinks row = qkey))

/-- The deduplicated union, keyed by dimension-coordinate identity, of the
references a row group carries for one dataset type (a later reference
with an already seen coordinate identity overwrites the earlier one). -/
def accRefs (dsType : DatasetType) (rowsG : List Row) : RefDict :=
  rowsG.foldl (fun rd row =>
    match dictGet row.datasetRefs dsType with
    | some ref => dictSet rd (_datasetRefKey ref) ref
    | none => rd) []

theorem dictSet_dictSet_same {K V : Type} [DecidableEq K]
    (d : List (K × V)) (k : K) (v w : V) :
    dictSet (dictSet d k v) k w = dictSet d k w := by
  induction d with
  | nil => simp [dictSet]
  | cons q rest ih =>
      obtain ⟨k₀, v₀⟩ := q
      by_cases hk : k₀ = k
      · subst hk
        simp [dictSet]
      · simp [dictSet, hk, ih]

theorem groupRefs_dictSet_self (d : QuantaDict) (k : QKey) (v : TypeDict)
    (dsType : DatasetType) :
    groupRefs (dictSet d k v) k dsType = (dictGet v dsType).getD [] := by
  unfold groupRefs
  rw [dictGet_dictSet_self]

theorem groupRefs_dictSet_ne (d : QuantaDict) {k k' : QKey} (v : TypeDict)
    (h : k' ≠ k) (dsType : DatasetType) :
    groupRefs (dictSet d k v) k' dsType = groupRefs d k' dsType := by
  unfold groupRefs
  rw [dictGet_dictSet_ne _ _ h]

theorem groupRefs_eq_inner (d : QuantaDict) (qkey : QKey)
    (dsType : DatasetType) :
    (dictGet ((dictGet d qkey).getD []) dsType).getD [] =
      groupRefs d qkey dsType := by
  unfold groupRefs
  cases hdg : dictGet d qkey <;> simp [hdg, dictGet]

theorem groupRows_append (qlinks : List DimName) (l : List Row) (row : Row)
    (qkey : QKey) :
    groupRows qlinks (l ++ [row]) qkey =
      groupRows qlinks l qkey ++
        (if qkeyOf qlinks row = qkey then [row] else []) := by
  unfold groupRows
  rw [List.filter_append]
  by_cases hk : qkeyOf qlinks row = qkey <;> simp [hk]

theorem accRefs_append (dsType : DatasetType) (G : List Row) (row : Row) :
    accRefs dsType (G ++ [row]) =
      (match dictGet row.datasetRefs dsType with
       | some ref => dictSet (accRefs dsType G) (_datasetRefKey ref) ref
       | none => accRefs dsType G) := by
  unfold accRefs
  rw [List.foldl_append]
  rfl

/-- Characterization of one successful `addRefs` call: for each requested
dataset type the row's reference was inserted at its coordinate identity,
and all other entries are untouched. -/
theorem addRefs_ok_get {row : Row} :
    ∀ {ts : List DatasetType} {d d' : TypeDict},
      addRefs row ts d = .ok d' → ∀ dsType : DatasetType,
      (dsType ∈ ts → ∃ ref, dictGet row.datasetRefs dsType = some ref ∧
        dictGet d' dsType = some (dictSet ((dictGet d dsType).getD [])
          (_datasetRefKey ref) ref)) ∧
      (dsType ∉ ts → dictGet d' dsType = dictGet d dsType) := by
  intro ts
  induction ts with
  | nil =>
      intro d d' h dsType
      have hd : d = d' := Except.ok.inj h
      subst hd
      exact ⟨fun hmem => absurd hmem (List.not_mem_nil _), fun _ => rfl⟩
  | cons t₀ rest ih =>
      intro d d' h dsType
      obtain ⟨d₁, hstep, hrest⟩ := exceptBind_ok
        (show ((match dictGet row.datasetRefs t₀ with
          | none => Except.error (BuildError.keyError t₀.name)
          | some datasetRef =>
              Except.ok (dictSet d t₀ (dictSet ((dictGet d t₀).getD [])
                (_datasetRefKey datasetRef) datasetRef))) >>=
          fun d₁ => addRefs row rest d₁) = .ok d' from h)
      cases hlk : dictGet row.datasetRefs t₀ with
      | none =>
          rw [hlk] at hstep
          exact Except.noConfusion hstep
      | some ref₀ =>
          rw [hlk] at hstep
          have hd₁ : d₁ = dictSet d t₀ (dictSet ((dictGet d t₀).getD [])
              (_datasetRefKey ref₀) ref₀) := (Except.ok.inj hstep).symm
          subst hd₁
          have ihd := ih hrest dsType
          constructor
          · intro hmem
            rcases List.mem_cons.mp hmem with rfl | hmem'
            · by_cases hrest' : dsType ∈ rest
              · obtain ⟨ref, href, hget⟩ := ihd.1 hrest'
                have href₀ : ref = ref₀ := by
                  rw [hlk] at href
                  exact (Option.some.inj href).symm
                subst href₀
                refine ⟨ref, href, ?_⟩
                rw [hget, dictGet_dictSet_self]
                simp [dictSet_dictSet_same]
              · refine ⟨ref₀, hlk, ?_⟩
                rw [ihd.2 hrest', dictGet_dictSet_self]
            · by_cases ht₀ : dsType = t₀
              · subst ht₀
                obtain ⟨ref, href, hget⟩ := ihd.1 hmem'
                have href₀ : ref = ref₀ := by
                  rw [hlk] at href
                  exact (Option.some.inj href).symm
                subst href₀
                refine ⟨ref, href, ?_⟩
                rw [hget, dictGet_dictSet_self]
                simp [dictSet_dictSet_same]
              · obtain ⟨ref, href, hget⟩ := ihd.1 hmem'
                refine ⟨ref, href, ?_⟩
                rw [hget, dictGet_dictSet_ne _ _ ht₀]
          · intro hnmem
            have ht₀ : dsType ≠ t₀ := fun hh => hnmem (hh ▸ List.mem_cons_self _ _)
            have hrest' : dsType ∉ rest := fun hh => hnmem (List.mem_cons_of_mem _ hh)
            rw [ihd.2 hrest', dictGet_dictSet_ne _ _ ht₀]

theorem foldlM_append_singleton {σ α ε : Type} (f : σ → α → Except ε σ)
    (init : σ) (l : List α) (a : α) :
    (l ++ [a]).foldlM f init = (l.foldlM f init >>= fun s => f s a) := by
  induction l generalizing init with
  | nil =>
      show (f init a >>= fun s => pure s) = f init a
      cases hfa : f init a <;> rfl
  | cons x xs ih =>
      show (f init x >>= fun s => (xs ++ [a]).foldlM f s) =
        ((f init x >>= fun s => xs.foldlM f s) >>= fun s => f s a)
      cases hfx : f init x with
      | error e => rfl
      | ok s₀ => exact ih s₀

theorem foldlM_concat_ok {σ α ε : Type} {f : σ → α → Except ε σ} {init : σ}
    {l : List α} {a : α} {r : σ}
    (h : (l ++ [a]).foldlM f init = .ok r) :
    ∃ s, l.foldlM f init = .ok s ∧ f s a = .ok r := by
  rw [foldlM_append_singleton] at h
  exact exceptBind_ok h

/-- Effect of one row on the grouped-and-deduplicated references of one
side (inputs or outputs): the row's reference is folded into its own
group and every other group is untouched. -/
theorem groupRefs_row_update {qlinks : List DimName} {row : Row}
    {ts : List DatasetType} {acc : QuantaDict} {q : TypeDict}
    (hadd : addRefs row ts ((dictGet acc (qkeyOf qlinks row)).getD []) = .ok q)
    {dsType : DatasetType} (hds : dsType ∈ ts) (qkey : QKey) (G : List Row)
    (hIH : groupRefs acc qkey dsType = accRefs dsType G) :
    groupRefs (dictSet acc (qkeyOf qlinks row) q) qkey dsType =
      accRefs dsType (G ++ (if qkeyOf qlinks row = qkey then [row] else [])) := by
  by_cases hk : qkeyOf qlinks row = qkey
  · subst hk
    rw [if_pos rfl, groupRefs_dictSet_self, accRefs_append]
    obtain ⟨ref, hlk, hget⟩ := (addRefs_ok_get hadd dsType).1 hds
    rw [hget, hlk]
    show dictSet ((dictGet ((dictGet acc (qkeyOf qlinks row)).getD [])
      dsType).getD []) (_datasetRefKey ref) ref = _
    rw [groupRefs_eq_inner, hIH]
  · rw [if_neg hk, List.append_nil,
      groupRefs_dictSet_ne _ _ (fun hh => hk hh.symm)]
    exact hIH

/-- C1 core: after a successful grouping pass over all rows, for every
input (resp. output) dataset type of the task and every group key, the
accumulated reference dict of that group equals the deduplicated union of
the references carried by exactly the rows projecting onto that key. -/
theorem processRows_groupRefs (qlinks : List DimName)
    (inputs outputs : List DatasetType) (rows : List Row)
    (tqi tqo : QuantaDict)
    (h : rows.foldlM (processRow qlinks inputs outputs) ([], []) =
      .ok (tqi, tqo)) :
    (∀ dsType ∈ inputs, ∀ qkey : QKey,
      groupRefs tqi qkey dsType = accRefs dsType (groupRows qlinks rows qkey)) ∧
    (∀ dsType ∈ outputs, ∀ qkey : QKey,
      groupRefs tqo qkey dsType = accRefs dsType (groupRows qlinks rows qkey)) := by
  induction rows using List.reverseRecOn generalizing tqi tqo with
  | nil =>
      cases h
      constructor <;> intro dsType _ qkey <;> rfl
  | append_singleton l row ih =>
      obtain ⟨mid, hmid, hstep⟩ := foldlM_concat_ok h
      obtain ⟨tqi₀, tqo₀⟩ := mid
      obtain ⟨qin, qout, hqin, hqout, hpair⟩ := processRow_ok_shape hstep
      have htqi : tqi = dictSet tqi₀ (qkeyOf qlinks row) qin :=
        congrArg Prod.fst hpair
      have htqo : tqo = dictSet tqo₀ (qkeyOf qlinks row) qout :=
        congrArg Prod.snd hpair
      subst htqi
      subst htqo
      obtain ⟨ih1, ih2⟩ := ih tqi₀ tqo₀ hmid
      constructor
      · intro dsType hds qkey
        rw [groupRows_append]
        exact groupRefs_row_update hqin hds qkey _ (ih1 dsType hds qkey)
      · intro dsType hds qkey
        rw [groupRows_append]
        exact groupRefs_row_update hqout hds qkey _ (ih2 dsType hds qkey)

theorem mem_keys_dictSet_self {K V : Type} [DecidableEq K]
    (d : List (K × V)) (k : K) (v : V) :
    k ∈ (dictSet d k v).map Prod.fst := by
  induction d with
  | nil => simp [dictSet]
  | cons q rest ih =>
      obtain ⟨k₀, v₀⟩ := q
      by_cases hk : k₀ = k
      · subst hk
        simp [dictSet]
      · simp only [dictSet, if_neg hk, List.map_cons, List.mem_cons]
        exact Or.inr ih

theorem dictSet_cons_eq {K V : Type} [DecidableEq K] (k : K) (v₀ v : V)
    (rest : List (K × V)) :
    dictSet ((k, v₀) :: rest) k v = (k, v) :: rest := by
  simp [dictSet]

theorem dictSet_cons_ne {K V : Type} [DecidableEq K] {k₀ k : K}
    (h : k₀ ≠ k) (v₀ : V) (v : V) (rest : List (K × V)) :
    dictSet ((k₀, v₀) :: rest) k v = (k₀, v₀) :: dictSet rest k v := by
  simp [dictSet, h]

theorem mem_keys_dictSet_mono {K V : Type} [DecidableEq K]
    {d : List (K × V)} {k' : K} (h : k' ∈ d.map Prod.fst) (k : K) (v : V) :
    k' ∈ (dictSet d k v).map Prod.fst := by
  induction d with
  | nil => simp at h
  | cons q rest ih =>
      obtain ⟨k₀, v₀⟩ := q
      simp only [List.map_cons, List.mem_cons] at h
      by_cases hk : k₀ = k
      · subst hk
        rw [dictSet_cons_eq]
        simp only [List.map_cons, List.mem_cons]
        rcases h with rfl | h'
        · exact Or.inl rfl
        · exact Or.inr h'
      · rw [dictSet_cons_ne hk]
        simp only [List.map_cons, List.mem_cons]
        rcases h with rfl | h'
        · exact Or.inl rfl
        · exact Or.inr (ih h')

/-- Membership in the deduplicated union comes from some row of the group,
and every stored key is the coordinate identity of its reference. -/
theorem accRefs_mem_from_rows (dsType : DatasetType) :
    ∀ (G : List Row) (rd : RefDict) (p : DataId × DatasetRef),
      p ∈ G.foldl (fun rd row =>
        match dictGet row.datasetRefs dsType with
        | some ref => dictSet rd (_datasetRefKey ref) ref
        | none => rd) rd →
      p ∈ rd ∨ (p.1 = _datasetRefKey p.2 ∧
        ∃ row ∈ G, dictGet row.datasetRefs dsType = some p.2) := by
  intro G
  induction G with
  | nil => intro rd p hp; exact Or.inl hp
  | cons row rest ihG =>
      intro rd p hp
      rcases ihG (match dictGet row.datasetRefs dsType with
        | some ref => dictSet rd (_datasetRefKey ref) ref
        | none => rd) p hp with hin | hres
      · cases hlk : dictGet row.datasetRefs dsType with
        | none =>
            rw [hlk] at hin
            exact Or.inl hin
        | some ref =>
            rw [hlk] at hin
            rcases mem_dictSet hin with rfl | hin'
            · exact Or.inr ⟨rfl, row, List.mem_cons_self _ _, hlk⟩
            · exact Or.inl hin'
      · obtain ⟨hk, row', hrow', href⟩ := hres
        exact Or.inr ⟨hk, row', List.mem_cons_of_mem _ hrow', href⟩

theorem foldl_keys_mono (dsType : DatasetType) :
    ∀ (G : List Row) (rd : RefDict) (k : DataId),
      k ∈ rd.map Prod.fst →
      k ∈ (G.foldl (fun rd row =>
        match dictGet row.datasetRefs dsType with
        | some ref => dictSet rd (_datasetRefKey ref) ref
        | none => rd) rd).map Prod.fst := by
  intro G
  induction G with
  | nil => intro rd k hk; exact hk
  | cons row rest ihG =>
      intro rd k hk
      refine ihG _ k ?_
      show k ∈ (match dictGet row.datasetRefs dsType with
        | some ref => dictSet rd (_datasetRefKey ref) ref
        | none => rd).map Prod.fst
      cases hlk : dictGet row.datasetRefs dsType with
      | none => exact hk
      | some ref => exact mem_keys_dictSet_mono hk _ _

/-- Every reference of a row of the group is represented in the
deduplicated union at its coordinate identity. -/
theorem accRefs_key_complete (dsType : DatasetType) :
    ∀ (G : List Row) (rd : RefDict) (row : Row) (ref : DatasetRef),
      row ∈ G → dictGet row.datasetRefs dsType = some ref →
      _datasetRefKey ref ∈ (G.foldl (fun rd row =>
        match dictGet row.datasetRefs dsType with
        | some ref => dictSet rd (_datasetRefKey ref) ref
        | none => rd) rd).map Prod.fst := by
  intro G
  induction G with
  | nil => intro rd row ref hrow _; cases hrow
  | cons row₀ rest ihG =>
      intro rd row ref hrow href
      rcases List.mem_cons.mp hrow with rfl | hrow'
      · refine foldl_keys_mono dsType rest _ _ ?_
        show _datasetRefKey ref ∈ (match dictGet row.datasetRefs dsType with
          | some r => dictSet rd (_datasetRefKey r) r
          | none => rd).map Prod.fst
        rw [href]
        exact mem_keys_dictSet_self _ _ _
      · exact ihG _ row ref hrow' href

/-- C1: rows are folded into work units by their projection onto the
task's quantum-dimension key — two rows with equal projections land in the
same group — and within a group's input (and output) accumulation each
dataset reference is deduplicated by its dimension-coordinate identity
(`_datasetRefKey`, the sorted dataId items), so the group's reference set
for each input dataset type is exactly the deduplicated union of the
references carried by the rows of that group. -/
theorem quantaGrouping (qlinks : List DimName)
    (inputs outputs : List DatasetType) (rows : List Row)
    (tqi tqo : QuantaDict)
    (h : rows.foldlM (processRow qlinks inputs outputs) ([], []) =
      .ok (tqi, tqo)) :
    (∀ dsType ∈ inputs, ∀ qkey : QKey,
      groupRefs tqi qkey dsType = accRefs dsType (groupRows qlinks rows qkey)) ∧
    (∀ dsType ∈ outputs, ∀ qkey : QKey,
      groupRefs tqo qkey dsType = accRefs dsType (groupRows qlinks rows qkey)) ∧
    (∀ (dsType : DatasetType) (rowsG : List Row) (p : DataId × DatasetRef),
      p ∈ accRefs dsType rowsG →
      p.1 = _datasetRefKey p.2 ∧
        ∃ row ∈ rowsG, dictGet row.datasetRefs dsType = some p.2) ∧
    (∀ (dsType : DatasetType) (rowsG : List Row) (row : Row) (ref : DatasetRef),
      row ∈ rowsG → dictGet row.datasetRefs dsType = some ref →
      _datasetRefKey ref ∈ (accRefs dsType rowsG).map Prod.fst) := by
  obtain ⟨h1, h2⟩ := processRows_groupRefs qlinks inputs outputs rows tqi tqo h
  refine ⟨h1, h2, ?_, ?_⟩
  · intro dsType rowsG p hp
    rcases accRefs_mem_from_rows dsType rowsG [] p hp with hin | hres
    · cases hin
    · exact hres
  · intro dsType rowsG row ref hrow href
    exact accRefs_key_complete dsType rowsG [] row ref hrow href

/-- First C1 scenario row: `visit=1, det=1`. -/
def refC1a : DatasetRef :=
  { datasetType := dtA, dataId := [("visit", 1), ("det", 1)], id := none }

/-- Second C1 scenario row's reference: same `visit`, different `det`. -/
def refC1b : DatasetRef :=
  { datasetType := dtA, dataId := [("visit", 1), ("det", 2)], id := none }

/-- C1 scenario row 1. -/
def exRow1 : Row :=
  { dataId := [("visit", 1), ("det", 1)], datasetRefs := [(dtA, refC1a)] }

/-- C1 scenario row 2: equal projection onto `["visit"]`, input reference
differing only in the non-key dimension `det`. -/
def exRow2 : Row :=
  { dataId := [("visit", 1), ("det", 2)], datasetRefs := [(dtA, refC1b)] }

/-- The accumulated input dict of the C1 scenario: one group holding both
references, keyed by their sorted coordinate items. -/
def exTqiC1 : QuantaDict :=
  [([("visit", some 1)],
    [(dtA, [([("det", 1), ("visit", 1)], refC1a),
            ([("det", 2), ("visit", 1)], refC1b)])])]

/-- Witness for C1: two rows with identical quantum-key projection fold
into one group whose input set is the union of both references,
deduplicated by coordinate identity. -/
theorem quantaGrouping_witness :
    ([exRow1, exRow2].foldlM (processRow ["visit"] [dtA] []) ([], []) =
      .ok (exTqiC1, [([("visit", some 1)], [])])) ∧
    groupRefs exTqiC1 [("visit", some 1)] dtA =
      accRefs dtA (groupRows ["visit"] [exRow1, exRow2] [("visit", some 1)]) ∧
    accRefs dtA (groupRows ["visit"] [exRow1, exRow2] [("visit", some 1)]) =
      [([("det", 1), ("visit", 1)], refC1a),
       ([("det", 2), ("visit", 1)], refC1b)] :=
  ⟨by rfl,
    (quantaGrouping ["visit"] [dtA] [] [exRow1, exRow2] exTqiC1
      [([("visit", some 1)], [])] (by rfl)).1 dtA (by decide) _,
    by decide⟩

end PipeBase
